import Mathlib

/-!
Verification of the game-room router and its wire codec.

The development shallowly embeds the Rust sources:
* `src/proto/mod.rs` — the `PartyId` identifier encoding and the
  `MessageStream` binary frame codec (`from_raw` / `into_raw`);
* `src/ws_handlers/mod.rs` — the `GameRoomRouterActor` message handler.

Machine integers are modelled as `Nat` with explicit `% 2^32` where u32
wrapping matters; byte strings are `List Nat`; a Rust panic is modelled by
`Option.none` in the handler's result; actor mailbox sends are collected in
an output list.
-/

namespace GameRoom

/-! ## Protocol constants (src/proto/mod.rs lines 7-12) -/

def PREAMBLE : Nat := 0xFEEDBEEF
def ALL_SERVER_ID_WITH_ECHO : Nat := 0xFFFFFFFF
def ALL_CLIENT_ID_WITH_ECHO : Nat := 0x7FFFFFFF
def ALL_SERVER_ID : Nat := 0xFFFFFFFE
def ALL_CLIENT_ID : Nat := 0x7FFFFFFE
def OFFSET_SERVER_ID : Nat := 0x80000000
def LENGTH_MESSAGE_STREAM_HEADER : Nat := 20

/-- The modulus of the u32 machine type. -/
def U32_MOD : Nat := 0x100000000

/-- The modulus of the u16 machine type. -/
def U16_MOD : Nat := 0x10000

/-! ## Enumerations -/

/-- `MessageCode` from src/proto/mod.rs: `Special = 0x5E`, `Normal = 0x00`. -/
inductive MessageCode where
  | Special
  | Normal
deriving DecidableEq, Repr

/-- The `#[repr(u8)]` discriminant of a `MessageCode`. -/
def MessageCode.toByte : MessageCode → Nat
  | .Special => 0x5E
  | .Normal => 0x00

/-- `PayloadKind` from src/proto/mod.rs: `Command = 0xC0`, `Data = 0xDA`,
`Info = 0x1F`. -/
inductive PayloadKind where
  | Command
  | Data
  | Info
deriving DecidableEq, Repr

/-- The `#[repr(u8)]` discriminant of a `PayloadKind`. -/
def PayloadKind.toByte : PayloadKind → Nat
  | .Command => 0xC0
  | .Data => 0xDA
  | .Info => 0x1F

/-! ## PartyId (src/proto/mod.rs lines 37-100) -/

/-- The tagged party identifier.  `Client`/`Server` carry a u32 index. -/
inductive PartyId where
  | AllClients
  | AllServers
  | AllClientsWithEcho
  | AllServersWithEcho
  | Client (n : Nat)
  | Server (n : Nat)
deriving DecidableEq, Repr

/-- `PartyId::from_u32`: decode a u32 wire value, reserved wildcards first,
then the high bit selects `Server`, otherwise `Client`. -/
def PartyId.from_u32 (party_id_value : Nat) : PartyId :=
  if party_id_value = ALL_CLIENT_ID then .AllClients
  else if party_id_value = ALL_SERVER_ID then .AllServers
  else if party_id_value = ALL_CLIENT_ID_WITH_ECHO then .AllClientsWithEcho
  else if party_id_value = ALL_SERVER_ID_WITH_ECHO then .AllServersWithEcho
  else if party_id_value ≥ OFFSET_SERVER_ID then .Server (party_id_value - OFFSET_SERVER_ID)
  else .Client party_id_value

/-- `PartyId::get_repr`: encode to a u32 wire value.  The `Server` arm is
`OFFSET_SERVER_ID + server_id` on u32, which wraps on overflow. -/
def PartyId.get_repr : PartyId → Nat
  | .AllClientsWithEcho => ALL_CLIENT_ID_WITH_ECHO
  | .AllClients => ALL_CLIENT_ID
  | .AllServersWithEcho => ALL_SERVER_ID_WITH_ECHO
  | .AllServers => ALL_SERVER_ID
  | .Client client_id => client_id
  | .Server server_id => (OFFSET_SERVER_ID + server_id) % U32_MOD

/-- `PartyId::is_single_client_id`. -/
def PartyId.is_single_client_id : PartyId → Bool
  | .Client _ => true
  | _ => false

/-- `PartyId::is_single_server_id`. -/
def PartyId.is_single_server_id : PartyId → Bool
  | .Server _ => true
  | _ => false

/-- A `PartyId` value that actually denotes a u32-representable party whose
encoding does not collide with a reserved wildcard constant: its single-party
index (if any) is below `ALL_CLIENT_ID = 0x7FFF_FFFE`. -/
def PartyId.canonical : PartyId → Prop
  | .Client n => n < ALL_CLIENT_ID
  | .Server n => n < ALL_CLIENT_ID
  | _ => True

instance : DecidablePred PartyId.canonical := by
  intro p
  cases p <;> simp [PartyId.canonical] <;> infer_instance

/-! ## Byte-level helpers for the codec -/

/-- Little-endian u32 byte serialization (`u32::to_le_bytes`). -/
def u32ToLe (n : Nat) : List Nat :=
  [n % 256, n / 256 % 256, n / 65536 % 256, n / 16777216 % 256]

/-- Little-endian u16 byte serialization (`u16::to_le_bytes`). -/
def u16ToLe (n : Nat) : List Nat :=
  [n % 256, n / 256 % 256]

/-- Read a little-endian u32 from four consecutive bytes of a list
(`u32::from_le_bytes` after `copy_from_slice`). -/
def readU32 (s : List Nat) (i : Nat) : Nat :=
  s.getD i 0 + 256 * s.getD (i + 1) 0 + 65536 * s.getD (i + 2) 0 +
    16777216 * s.getD (i + 3) 0

/-- Read a little-endian u16 from two consecutive bytes of a list. -/
def readU16 (s : List Nat) (i : Nat) : Nat :=
  s.getD i 0 + 256 * s.getD (i + 1) 0

/-! ## MessageStream (src/proto/mod.rs lines 102-242) -/

/-- The in-memory wire frame. -/
structure MessageStream where
  message_code : MessageCode
  room_id : Nat
  origin_id : PartyId
  destination_id : PartyId
  payload_kind : PayloadKind
  payload : List Nat
deriving DecidableEq, Repr

/-- Parse errors of `MessageStream::from_raw`, one per `Err` branch. -/
inductive ParseError where
  | shortHeader
  | badPreamble
  | badMessageCode
  | badPayloadKind
  | lengthMismatch
deriving DecidableEq, Repr

instance {ε α : Type} [DecidableEq ε] [DecidableEq α] : DecidableEq (Except ε α) := fun x y =>
  match x, y with
  | .ok a, .ok b => if h : a = b then .isTrue (by rw [h]) else .isFalse (by simp [h])
  | .error a, .error b => if h : a = b then .isTrue (by rw [h]) else .isFalse (by simp [h])
  | .ok _, .error _ => .isFalse (by simp)
  | .error _, .ok _ => .isFalse (by simp)

/-- `MessageStream::from_raw`: validate the 20-byte header, decode the party
ids, then check the declared payload length against the total length. -/
def from_raw (source : List Nat) : Except ParseError MessageStream :=
  if source.length < LENGTH_MESSAGE_STREAM_HEADER then
    .error .shortHeader
  else if readU32 source 0 ≠ PREAMBLE then
    .error .badPreamble
  else if source.getD 4 0 = 0x00 ∨ source.getD 4 0 = 0x5E then
    let message_code : MessageCode := if source.getD 4 0 = 0x00 then .Normal else .Special
    let room_id := readU32 source 5
    let origin_id := PartyId.from_u32 (readU32 source 9)
    let destination_id := PartyId.from_u32 (readU32 source 13)
    if source.getD 17 0 = 0xC0 ∨ source.getD 17 0 = 0xDA ∨ source.getD 17 0 = 0x1F then
      let payload_kind : PayloadKind :=
        if source.getD 17 0 = 0xC0 then .Command
        else if source.getD 17 0 = 0xDA then .Data
        else .Info
      let payload_length := readU16 source 18
      if payload_length + LENGTH_MESSAGE_STREAM_HEADER ≠ source.length then
        .error .lengthMismatch
      else
        let payload :=
          if payload_length = 0 then []
          else (source.drop LENGTH_MESSAGE_STREAM_HEADER).take payload_length
        .ok ⟨message_code, room_id, origin_id, destination_id, payload_kind, payload⟩
    else
      .error .badPayloadKind
  else
    .error .badMessageCode

/-- `MessageStream::into_raw`: serialize header then payload.  The length
field is `payload.len() as u16` (truncating); when the truncated length is
positive but differs from the true length, `copy_from_slice` panics, which is
modelled by `none`.  When the truncated length is `0` the payload copy is
skipped entirely. -/
def into_raw (ms : MessageStream) : Option (List Nat) :=
  let payload_length := ms.payload.length % U16_MOD
  let header :=
    u32ToLe PREAMBLE ++ [ms.message_code.toByte] ++ u32ToLe ms.room_id ++
      u32ToLe ms.origin_id.get_repr ++ u32ToLe ms.destination_id.get_repr ++
      [ms.payload_kind.toByte] ++ u16ToLe payload_length
  if payload_length = 0 then some header
  else if payload_length = ms.payload.length then some (header ++ ms.payload)
  else none

/-! ## Ordered-map operations

`BTreeMap` from the Rust standard library is modelled as an association list
kept sorted by key, so list order is iteration order. -/

/-- `BTreeMap::get`. -/
def alLookup {α : Type} (k : Nat) : List (Nat × α) → Option α
  | [] => none
  | (k', v) :: rest => if k = k' then some v else alLookup k rest

/-- `BTreeMap::insert`: replace the value at an existing key, otherwise place
the new binding at its sorted position. -/
def alInsert {α : Type} (k : Nat) (v : α) : List (Nat × α) → List (Nat × α)
  | [] => [(k, v)]
  | (k', v') :: rest =>
    if k < k' then (k, v) :: (k', v') :: rest
    else if k = k' then (k, v) :: rest
    else (k', v') :: alInsert k v rest

/-- `BTreeMap::remove`: return the removed value (if any) and the remaining
map. -/
def alRemove {α : Type} (k : Nat) : List (Nat × α) → Option α × List (Nat × α)
  | [] => (none, [])
  | (k2, v) :: rest =>
    if k = k2 then (some v, rest)
    else ((alRemove k rest).1, (k2, v) :: (alRemove k rest).2)

/-! ## Router data model (src/ws_handlers/mod.rs) -/

/-- Client UUIDs, as their 16 raw bytes (`Uuid::as_bytes`). -/
abbrev Uuid := List Nat

/-- Opaque actor mailbox address of a `ClientActor`. -/
abbrev ClientAddr := Nat

/-- Opaque actor mailbox address of a `ServerActor`. -/
abbrev ServerAddr := Nat

/-- `InterActorMessage` from src/ws_handlers/mod.rs. -/
inductive InterActorMessage where
  | ServerConnect (p : PartyId) (addr : ServerAddr)
  | ClientConnect (room_id : Nat) (p : PartyId) (uuid : Uuid) (addr : ClientAddr)
  | Disconnect (p : PartyId) (uuid : Option Uuid)
  | NewMessage (origin : PartyId) (ms : MessageStream)
deriving DecidableEq, Repr

/-- The mailbox a routed message is sent to (`do_send` target). -/
inductive Dest where
  | server (a : ServerAddr)
  | client (a : ClientAddr)
deriving DecidableEq, Repr

/-- One fire-and-forget mailbox send performed by the router. -/
structure Send where
  dest : Dest
  msg : InterActorMessage
deriving DecidableEq, Repr

/-- The members of one room: party index ↦ (uuid, connection handle). -/
abbrev RoomClients := List (Nat × (Uuid × ClientAddr))

/-- The room table: room id (u8) ↦ room members. -/
abbrev GameRooms := List (Nat × RoomClients)

/-- `GameRoomRouterActor` state.  `available_rooms` stands for the contents
of the shared `Arc<Mutex<Vec<u8>>>` list and `server_joined` for the shared
atomic flag. -/
structure RouterState where
  available_rooms : List Nat
  server_handle : Option (Nat × ServerAddr)
  server_joined : Bool
  game_rooms : GameRooms
deriving DecidableEq, Repr

/-- `GameRoomRouterActor::new` state, with the flag and list as `main` sets
them at startup. -/
def initialState : RouterState :=
  { available_rooms := [], server_handle := none, server_joined := false, game_rooms := [] }

/-- The hello payload of a `ClientConnect`: `0xF0` then the 16 UUID bytes. -/
def helloPayload (u : Uuid) : List Nat := 0xF0 :: u

/-- The goodbye payload of a client departure: `0x0F` then the UUID bytes. -/
def goodbyePayload (u : Uuid) : List Nat := 0x0F :: u

/-- The sends of the server-departure branch: every client of every room
receives `Disconnect(PartyId::from_u32(idx), Some(uuid))`, rooms and members
in iteration (key) order. -/
def clientCascade (rooms : GameRooms) : List Send :=
  rooms.flatMap fun rc =>
    rc.2.map fun pc =>
      ⟨.client pc.2.2, .Disconnect (PartyId.from_u32 pc.1) (some pc.2.1)⟩

/-- The client-departure loop: remove the departing party's index from every
room; for each room where an entry was removed and a server handle exists,
send the goodbye notification to the server. -/
def clientDepartLoop (server_handle : Option (Nat × ServerAddr)) (party_id : PartyId) :
    GameRooms → GameRooms × List Send
  | [] => ([], [])
  | (room_id, clients) :: rest =>
    let rem := alRemove party_id.get_repr clients
    let r := clientDepartLoop server_handle party_id rest
    match rem.1, server_handle with
    | some cv, some sh =>
      let exit_info : MessageStream :=
        ⟨.Special, room_id, party_id, .Server 0, .Info, goodbyePayload cv.1⟩
      ((room_id, rem.2) :: r.1, ⟨.server sh.2, .NewMessage party_id exit_info⟩ :: r.2)
    | _, _ => ((room_id, rem.2) :: r.1, r.2)

/-- The room list processing of the Special branch: `sort_unstable`,
`Vec::dedup` (adjacent duplicates), then truncation to 256 entries. -/
def dedupAdj : List Nat → List Nat
  | [] => []
  | [x] => [x]
  | x :: y :: rest => if x = y then dedupAdj (y :: rest) else x :: dedupAdj (y :: rest)

/-- The Special-branch room list computation: `sort_unstable` then `dedup`
then truncation of the iteration to at most 256 entries. -/
def specialRoomList (payload : List Nat) : List Nat :=
  let room_list := dedupAdj (payload.insertionSort (· ≤ ·))
  let room_count := if room_list.length > 256 then 256 else room_list.length
  room_list.take room_count

/-- `GameRoomRouterActor`'s `Handler<InterActorMessage>::handle`.  The result
is `none` when the handler panics (the `unwrap` of an absent server handle),
otherwise the updated state and the list of mailbox sends in order. -/
def handle (s : RouterState) (message : InterActorMessage) :
    Option (RouterState × List Send) :=
  match message with
  | .ServerConnect party_id server_address =>
    some ({ s with server_handle := some (party_id.get_repr, server_address) }, [])
  | .ClientConnect room_id party_id client_id client_address =>
    let room_entry := (alLookup room_id s.game_rooms).getD []
    let room_entry := alInsert party_id.get_repr (client_id, client_address) room_entry
    let join_info : MessageStream :=
      ⟨.Special, room_id, party_id, .Server 0, .Info, helloPayload client_id⟩
    let sends : List Send :=
      match s.server_handle with
      | some sh => [⟨.server sh.2, .NewMessage party_id join_info⟩]
      | none => []
    some ({ s with game_rooms := alInsert room_id room_entry s.game_rooms }, sends)
  | .Disconnect party_id _ =>
    if party_id = .Server 0 then
      some ({ s with server_joined := false, available_rooms := [], server_handle := none },
        clientCascade s.game_rooms)
    else
      let r := clientDepartLoop s.server_handle party_id s.game_rooms
      some ({ s with game_rooms := r.1 }, r.2)
  | .NewMessage origin_party_id message_stream =>
    match message_stream.message_code with
    | .Special =>
      if message_stream.payload_kind ≠ .Info then some (s, [])
      else if origin_party_id ≠ .Server 0 then some (s, [])
      else
        some ({ s with available_rooms := specialRoomList message_stream.payload }, [])
    | .Normal =>
      if origin_party_id ≠ message_stream.origin_id then some (s, [])
      else
        let room_id := message_stream.room_id % 256
        match origin_party_id.is_single_server_id, origin_party_id.is_single_client_id with
        | true, true => some (s, [])
        | false, false => some (s, [])
        | _, _ =>
          match message_stream.destination_id with
          | .AllClients | .AllServers | .AllClientsWithEcho | .AllServersWithEcho =>
            match s.server_handle with
            | none => none
            | some sh =>
              let clientSends : List Send :=
                match alLookup room_id s.game_rooms with
                | some room_clients =>
                  room_clients.map fun pc =>
                    ⟨.client pc.2.2, .NewMessage origin_party_id message_stream⟩
                | none => []
              some (s, ⟨.server sh.2, .NewMessage origin_party_id message_stream⟩ :: clientSends)
          | .Server _ =>
            match s.server_handle with
            | none => none
            | some sh =>
              some (s, [⟨.server sh.2, .NewMessage origin_party_id message_stream⟩])
          | .Client client_party_id =>
            match alLookup room_id s.game_rooms with
            | some room_clients =>
              match alLookup client_party_id room_clients with
              | some cv => some (s, [⟨.client cv.2, .NewMessage origin_party_id message_stream⟩])
              | none => some (s, [])
            | none => some (s, [])

/-- Router states reachable from the initial state by handled events (panicking
events have no successor state). -/
inductive Reachable : RouterState → Prop where
  | init : Reachable initialState
  | step {s s' : RouterState} {m : InterActorMessage} {sends : List Send} :
      Reachable s → handle s m = some (s', sends) → Reachable s'

/-! ## Derived state measures and concrete fixture states -/

/-- Number of rooms whose member map has an entry for the party index. -/
def countRoomsWith (idx : Nat) (rooms : GameRooms) : Nat :=
  (rooms.filter fun rc => (alLookup idx rc.2).isSome).length

/-- Number of rooms of the router state containing the party index. -/
def roomsContaining (s : RouterState) (idx : Nat) : Nat :=
  countRoomsWith idx s.game_rooms

/-- Total number of client entries across all rooms. -/
def totalEntries (rooms : GameRooms) : Nat :=
  (rooms.map fun rc => rc.2.length).sum

/-- A two-room router state in which party index 0 appears in both rooms. -/
def twoRoomState : RouterState :=
  ⟨[1, 2], some (0x80000000, 7), true,
    [(1, [(0, (List.replicate 16 0, 10))]), (2, [(0, (List.replicate 16 0, 11))])]⟩

/-- Fixture: a serving router with two clients in room 5. -/
def room5State : RouterState :=
  ⟨[5], some (0x80000000, 7), true,
    [(5, [(0, (List.replicate 16 0, 20)), (1, (List.replicate 16 1, 21))])]⟩

/-- Fixture: a serving router with one client in room 3 at party index 0. -/
def room3State : RouterState :=
  ⟨[], some (0x80000000, 7), true, [(3, [(0, (List.replicate 16 0, 9))])]⟩

/-! ## Helper lemmas -/

theorem get_repr_lt (p : PartyId) (hp : p.canonical) : p.get_repr < U32_MOD := by
  cases p <;>
    simp_all [PartyId.canonical, PartyId.get_repr, ALL_CLIENT_ID, ALL_SERVER_ID, U32_MOD,
      ALL_CLIENT_ID_WITH_ECHO, ALL_SERVER_ID_WITH_ECHO, OFFSET_SERVER_ID] <;> omega

theorem from_u32_get_repr (p : PartyId) (hp : p.canonical) :
    PartyId.from_u32 p.get_repr = p := by
  cases p with
  | Client n =>
    simp only [PartyId.canonical, ALL_CLIENT_ID] at hp
    simp only [PartyId.get_repr, PartyId.from_u32, ALL_CLIENT_ID, ALL_SERVER_ID,
      ALL_CLIENT_ID_WITH_ECHO, ALL_SERVER_ID_WITH_ECHO, OFFSET_SERVER_ID]
    split_ifs <;> first | rfl | (exfalso; omega)
  | Server n =>
    simp only [PartyId.canonical, ALL_CLIENT_ID] at hp
    simp only [PartyId.get_repr, PartyId.from_u32, ALL_CLIENT_ID, ALL_SERVER_ID,
      ALL_CLIENT_ID_WITH_ECHO, ALL_SERVER_ID_WITH_ECHO, OFFSET_SERVER_ID, U32_MOD]
    rw [Nat.mod_eq_of_lt (by omega)]
    split_ifs <;> first | (simp only [PartyId.Server.injEq]; omega) | (exfalso; omega)
  | AllClients => decide
  | AllServers => decide
  | AllClientsWithEcho => decide
  | AllServersWithEcho => decide

theorem from_raw_cons20 (b0 b1 b2 b3 b4 b5 b6 b7 b8 b9 b10 b11 b12 b13 b14 b15 b16 b17 b18 b19 :
    Nat) (rest : List Nat) :
    from_raw (b0 :: b1 :: b2 :: b3 :: b4 :: b5 :: b6 :: b7 :: b8 :: b9 :: b10 :: b11 :: b12 ::
        b13 :: b14 :: b15 :: b16 :: b17 :: b18 :: b19 :: rest) =
      (if rest.length + 1 + 1 + 1 + 1 + 1 + 1 + 1 + 1 + 1 + 1 + 1 + 1 + 1 + 1 + 1 + 1 + 1 + 1 +
          1 + 1 < LENGTH_MESSAGE_STREAM_HEADER then .error .shortHeader
       else if b0 + 256 * b1 + 65536 * b2 + 16777216 * b3 ≠ PREAMBLE then .error .badPreamble
       else if b4 = 0x00 ∨ b4 = 0x5E then
         if b17 = 0xC0 ∨ b17 = 0xDA ∨ b17 = 0x1F then
           if b18 + 256 * b19 + LENGTH_MESSAGE_STREAM_HEADER ≠
               rest.length + 1 + 1 + 1 + 1 + 1 + 1 + 1 + 1 + 1 + 1 + 1 + 1 + 1 + 1 + 1 + 1 + 1 +
                 1 + 1 + 1 then
             .error .lengthMismatch
           else
             .ok ⟨if b4 = 0x00 then .Normal else .Special,
                  b5 + 256 * b6 + 65536 * b7 + 16777216 * b8,
                  PartyId.from_u32 (b9 + 256 * b10 + 65536 * b11 + 16777216 * b12),
                  PartyId.from_u32 (b13 + 256 * b14 + 65536 * b15 + 16777216 * b16),
                  if b17 = 0xC0 then .Command else if b17 = 0xDA then .Data else .Info,
                  if b18 + 256 * b19 = 0 then [] else rest.take (b18 + 256 * b19)⟩
         else .error .badPayloadKind
       else .error .badMessageCode) := rfl

theorem from_raw_append_header (mc : MessageCode) (rid : Nat) (oid did : PartyId)
    (pk : PayloadKind) (pl : List Nat) (hlen : pl.length ≤ 65535) (hrid : rid < U32_MOD)
    (ho : oid.get_repr < U32_MOD) (hd : did.get_repr < U32_MOD) :
    from_raw (u32ToLe PREAMBLE ++ [mc.toByte] ++ u32ToLe rid ++ u32ToLe oid.get_repr ++
        u32ToLe did.get_repr ++ [pk.toByte] ++ u16ToLe pl.length ++ pl) =
      .ok ⟨mc, rid, PartyId.from_u32 oid.get_repr, PartyId.from_u32 did.get_repr, pk, pl⟩ := by
  simp only [U32_MOD] at hrid ho hd
  have hrid2 : rid % 256 + 256 * (rid / 256 % 256) + 65536 * (rid / 65536 % 256) +
      16777216 * (rid / 16777216 % 256) = rid := by omega
  have ho2 : oid.get_repr % 256 + 256 * (oid.get_repr / 256 % 256) +
      65536 * (oid.get_repr / 65536 % 256) + 16777216 * (oid.get_repr / 16777216 % 256) =
      oid.get_repr := by omega
  have hd2 : did.get_repr % 256 + 256 * (did.get_repr / 256 % 256) +
      65536 * (did.get_repr / 65536 % 256) + 16777216 * (did.get_repr / 16777216 % 256) =
      did.get_repr := by omega
  have hread : pl.length % 256 + 256 * (pl.length / 256 % 256) = pl.length := by omega
  cases mc <;> cases pk <;>
    (simp only [u32ToLe, u16ToLe, MessageCode.toByte, PayloadKind.toByte, PREAMBLE,
      List.cons_append, List.nil_append, Nat.reduceMod, Nat.reduceDiv]
     rw [from_raw_cons20]
     rw [if_neg (by simp only [LENGTH_MESSAGE_STREAM_HEADER]; omega)]
     rw [if_neg (not_not_intro (by norm_num [PREAMBLE]))]
     rw [if_pos (by norm_num)]
     rw [if_pos (by norm_num)]
     rw [if_neg (not_not_intro (by simp only [LENGTH_MESSAGE_STREAM_HEADER]; omega))]
     simp only [hrid2, ho2, hd2, hread, List.take_length]
     norm_num)

theorem into_raw_eq (ms : MessageStream) (hlen : ms.payload.length ≤ 65535) :
    into_raw ms = some (u32ToLe PREAMBLE ++ [ms.message_code.toByte] ++ u32ToLe ms.room_id ++
      u32ToLe ms.origin_id.get_repr ++ u32ToLe ms.destination_id.get_repr ++
      [ms.payload_kind.toByte] ++ u16ToLe ms.payload.length ++ ms.payload) := by
  have hm : ms.payload.length % U16_MOD = ms.payload.length :=
    Nat.mod_eq_of_lt (by simp only [U16_MOD]; omega)
  unfold into_raw
  simp only [hm]
  by_cases hz : ms.payload.length = 0
  · rw [if_pos hz]
    have hnil : ms.payload = [] := List.length_eq_zero.mp hz
    simp [hnil]
  · rw [if_neg hz]
    simp

theorem dedupAdj_cons_head : ∀ (y : Nat) (rest : List Nat), ∃ t, dedupAdj (y :: rest) = y :: t
  | _, [] => ⟨[], rfl⟩
  | y, z :: rest => by
    by_cases h : y = z
    · obtain ⟨t, ht⟩ := dedupAdj_cons_head z rest
      exact ⟨t, by rw [dedupAdj, if_pos h, ht, h]⟩
    · exact ⟨dedupAdj (z :: rest), by rw [dedupAdj, if_neg h]⟩

theorem chain_lt_dedupAdj : ∀ l : List Nat,
    List.Chain' (· ≤ ·) l → List.Chain' (· < ·) (dedupAdj l)
  | [] , _ => by simp [dedupAdj]
  | [x], _ => by simp [dedupAdj]
  | x :: y :: rest, h => by
    obtain ⟨h1, h2⟩ := List.chain'_cons.mp h
    by_cases hxy : x = y
    · rw [dedupAdj, if_pos hxy]
      exact chain_lt_dedupAdj (y :: rest) h2
    · rw [dedupAdj, if_neg hxy]
      obtain ⟨t, ht⟩ := dedupAdj_cons_head y rest
      rw [ht]
      rw [List.chain'_cons]
      refine ⟨lt_of_le_of_ne h1 hxy, ?_⟩
      rw [← ht]
      exact chain_lt_dedupAdj (y :: rest) h2

theorem dedupAdj_subset : ∀ l : List Nat, dedupAdj l ⊆ l
  | [] => by simp [dedupAdj]
  | [x] => by simp [dedupAdj]
  | x :: y :: rest => by
    by_cases hxy : x = y
    · rw [dedupAdj, if_pos hxy]
      intro a ha
      exact List.mem_cons_of_mem _ (dedupAdj_subset (y :: rest) ha)
    · rw [dedupAdj, if_neg hxy]
      intro a ha
      rcases List.mem_cons.mp ha with rfl | ha
      · exact List.mem_cons_self _ _
      · exact List.mem_cons_of_mem _ (dedupAdj_subset (y :: rest) ha)

theorem specialRoomList_facts (pl : List Nat) :
    List.Sorted (· < ·) (specialRoomList pl) ∧ (specialRoomList pl).length ≤ 256 ∧
      ∀ x ∈ specialRoomList pl, x ∈ pl := by
  have hsorted : List.Sorted (· ≤ ·) (pl.insertionSort (· ≤ ·)) :=
    List.sorted_insertionSort (· ≤ ·) pl
  have hchain : List.Chain' (· ≤ ·) (pl.insertionSort (· ≤ ·)) :=
    List.chain'_iff_pairwise.mpr hsorted
  have hlt : List.Chain' (· < ·) (dedupAdj (pl.insertionSort (· ≤ ·))) :=
    chain_lt_dedupAdj _ hchain
  have hpw : List.Pairwise (· < ·) (dedupAdj (pl.insertionSort (· ≤ ·))) :=
    List.chain'_iff_pairwise.mp hlt
  refine ⟨?_, ?_, ?_⟩
  · exact List.Pairwise.sublist (List.take_sublist _ _) hpw
  · simp only [specialRoomList, List.length_take]
    split_ifs with h <;> omega
  · intro x hx
    have hx2 : x ∈ dedupAdj (pl.insertionSort (· ≤ ·)) :=
      List.mem_of_mem_take (by simpa [specialRoomList] using hx)
    have hx3 : x ∈ pl.insertionSort (· ≤ ·) := dedupAdj_subset _ hx2
    exact (List.perm_insertionSort (· ≤ ·) pl).mem_iff.mp hx3

/-- Membership under a successful lookup. -/
theorem alLookup_mem {α : Type} (k : Nat) (v : α) :
    ∀ l : List (Nat × α), alLookup k l = some v → (k, v) ∈ l := by
  intro l
  induction l with
  | nil => simp [alLookup]
  | cons hd tl ih =>
    intro h
    rw [alLookup] at h
    split_ifs at h with hk
    · cases h
      subst hk
      exact List.mem_cons_self _ _
    · exact List.mem_cons_of_mem _ (ih h)

/-- Lookup after replacing insert finds the new value. -/
theorem alLookup_alInsert {α : Type} (k : Nat) (v : α) :
    ∀ l : List (Nat × α), alLookup k (alInsert k v l) = some v := by
  intro l
  induction l with
  | nil => simp [alInsert, alLookup]
  | cons hd tl ih =>
    obtain ⟨k2, v2⟩ := hd
    rw [alInsert]
    split_ifs with h1 h2
    · simp [alLookup]
    · simp [alLookup]
    · rw [alLookup, if_neg (by omega), ih]

theorem alRemove_fst {α : Type} (k : Nat) :
    ∀ l : List (Nat × α), (alRemove k l).1 = alLookup k l := by
  intro l
  induction l with
  | nil => simp [alRemove, alLookup]
  | cons hd tl ih =>
    obtain ⟨k2, v2⟩ := hd
    rw [alRemove, alLookup]
    split_ifs with h1
    · rfl
    · simpa using ih

theorem alLookup_isSome_length {α : Type} (k : Nat) (l : List (Nat × α))
    (h : (alLookup k l).isSome) : 1 ≤ l.length := by
  cases l with
  | nil => simp [alLookup] at h
  | cons a b => simp

theorem alRemove_length {α : Type} (k : Nat) :
    ∀ l : List (Nat × α), (alRemove k l).2.length =
      if (alLookup k l).isSome then l.length - 1 else l.length := by
  intro l
  induction l with
  | nil => simp [alRemove, alLookup]
  | cons hd tl ih =>
    obtain ⟨k2, v2⟩ := hd
    rw [alRemove, alLookup]
    by_cases h1 : k = k2
    · simp [h1]
    · rw [if_neg h1, if_neg h1]
      by_cases h2 : (alLookup k tl).isSome
      · have hle := alLookup_isSome_length k tl h2
        simp only [List.length_cons, ih, h2, if_true]
        simp [h2]
        omega
      · simp only [List.length_cons, ih, h2]
        simp [h2]

theorem countRoomsWith_le_totalEntries (idx : Nat) :
    ∀ rooms : GameRooms, countRoomsWith idx rooms ≤ totalEntries rooms := by
  intro rooms
  induction rooms with
  | nil => simp [countRoomsWith, totalEntries]
  | cons hd tl ih =>
    obtain ⟨room_id, clients⟩ := hd
    by_cases h : (alLookup idx clients).isSome
    · have := alLookup_isSome_length idx clients h
      simp only [countRoomsWith, totalEntries, List.filter_cons, List.map_cons, List.sum_cons,
        h] at *
      simp only [if_pos True.intro]
      simp only [List.length_cons]
      omega
    · simp only [countRoomsWith, totalEntries, List.filter_cons, List.map_cons, List.sum_cons,
        h] at *
      simp
      omega

theorem clientDepartLoop_spec (sh : Option (Nat × ServerAddr)) (p : PartyId) :
    ∀ rooms : GameRooms,
      (clientDepartLoop sh p rooms).2.length =
        (if sh.isSome then countRoomsWith p.get_repr rooms else 0) ∧
      totalEntries (clientDepartLoop sh p rooms).1 =
        totalEntries rooms - countRoomsWith p.get_repr rooms := by
  intro rooms
  induction rooms with
  | nil => cases sh <;> simp [clientDepartLoop, countRoomsWith, totalEntries]
  | cons hd tl ih =>
    obtain ⟨room_id, clients⟩ := hd
    have hlen := alRemove_length p.get_repr clients
    have hcle := countRoomsWith_le_totalEntries p.get_repr tl
    by_cases h2 : (alLookup p.get_repr clients).isSome
    · obtain ⟨cv, hcv⟩ := Option.isSome_iff_exists.mp h2
      have hle1 := alLookup_isSome_length p.get_repr clients h2
      have hfst := alRemove_fst p.get_repr clients
      rw [hcv] at hfst
      rw [h2] at hlen
      simp only [if_true] at hlen
      cases sh with
      | none =>
        simp [clientDepartLoop, hfst, countRoomsWith, totalEntries, List.filter_cons, h2,
          hlen] at ih hcle ⊢
        obtain ⟨ih1, ih2⟩ := ih
        constructor <;> first | exact ih1 | omega
      | some shv =>
        simp [clientDepartLoop, hfst, countRoomsWith, totalEntries, List.filter_cons, h2,
          hlen] at ih hcle ⊢
        obtain ⟨ih1, ih2⟩ := ih
        constructor <;> first | exact ih1 | omega
    · have hnone : alLookup p.get_repr clients = none := Option.not_isSome_iff_eq_none.mp h2
      have hfst := alRemove_fst p.get_repr clients
      rw [hnone] at hfst
      rw [hnone] at hlen
      simp only [Option.isSome_none, Bool.false_eq_true, if_false] at hlen
      cases sh with
      | none =>
        simp [clientDepartLoop, hfst, countRoomsWith, totalEntries, List.filter_cons, hnone,
          hlen] at ih hcle ⊢
        obtain ⟨ih1, ih2⟩ := ih
        constructor <;> first | exact ih1 | omega
      | some shv =>
        simp [clientDepartLoop, hfst, countRoomsWith, totalEntries, List.filter_cons, hnone,
          hlen] at ih hcle ⊢
        obtain ⟨ih1, ih2⟩ := ih
        constructor <;> first | exact ih1 | omega

/-! ## Claim theorems -/

/-- Claim C1 (amended): for every `MessageStream` whose payload is at most 65535 bytes, whose
room id is a u32 value, and whose origin and destination party ids are canonical (wildcards, or
single-party indices below `ALL_CLIENT_ID = 0x7FFF_FFFE`), serialization succeeds and parsing
the serialized bytes returns the original frame.  The canonicity restriction is forced: a frame
whose origin is `Client(0x7FFF_FFFE)` serializes onto the `AllClients` wildcard and does not
round-trip. -/
theorem claim_c1_roundtrip (ms : MessageStream) (hlen : ms.payload.length ≤ 65535)
    (hrid : ms.room_id < U32_MOD) (ho : ms.origin_id.canonical) (hd : ms.destination_id.canonical) :
    ∃ raw, into_raw ms = some raw ∧ from_raw raw = Except.ok ms := by
  refine ⟨_, into_raw_eq ms hlen, ?_⟩
  obtain ⟨mc, rid, oid, did, pk, pl⟩ := ms
  simp only at hlen hrid ho hd ⊢
  rw [from_raw_append_header mc rid oid did pk pl hlen hrid (get_repr_lt oid ho)
    (get_repr_lt did hd), from_u32_get_repr oid ho, from_u32_get_repr did hd]

/-- Witness for claim C1 at the frame of the repository's own unit test. -/
theorem claim_c1_witness :
    (PartyId.Server 15).canonical ∧ (PartyId.Client 12).canonical ∧
    (∃ raw, into_raw ⟨.Special, 10, .Server 15, .Client 12, .Data, [0xFF, 0xAA]⟩ = some raw ∧
      from_raw raw = Except.ok ⟨.Special, 10, .Server 15, .Client 12, .Data, [0xFF, 0xAA]⟩) :=
  ⟨by decide, by decide,
    claim_c1_roundtrip _ (by decide) (by decide) (by decide) (by decide)⟩

/-- Counterexample to claim C1 as stated: the frame with origin `Client(0x7FFF_FFFE)` and empty
payload (payload length 0 ≤ 65535) does not survive the round trip. -/
theorem claim_c1_counterexample :
    from_raw ((into_raw ⟨.Normal, 0, .Client 0x7FFFFFFE, .Client 0, .Data, []⟩).getD []) ≠
      Except.ok ⟨.Normal, 0, .Client 0x7FFFFFFE, .Client 0, .Data, []⟩ := by decide

/-- Claim C2 (amended): decoding the encoding returns the original `PartyId` for the four
wildcard variants and for `Client(n)`/`Server(n)` with `n < ALL_CLIENT_ID = 0x7FFF_FFFE`; the
encoding of such a party is a u32 value.  The restriction on `n` is forced: indices at or above
`0x7FFF_FFFE` collide with the reserved wildcard representations (or wrap around for
`Server`). -/
theorem claim_c2_roundtrip (p : PartyId) (hp : p.canonical) :
    PartyId.from_u32 p.get_repr = p ∧ p.get_repr < U32_MOD :=
  ⟨from_u32_get_repr p hp, get_repr_lt p hp⟩

/-- Witness for claim C2 at `Server 15`. -/
theorem claim_c2_witness :
    (PartyId.Server 15).canonical ∧
      (PartyId.from_u32 (PartyId.Server 15).get_repr = PartyId.Server 15 ∧
        (PartyId.Server 15).get_repr < U32_MOD) :=
  ⟨by decide, claim_c2_roundtrip (PartyId.Server 15) (by decide)⟩

/-- Counterexample to claim C2 as stated: `Client 0x7FFF_FFFE` encodes to the `AllClients`
wildcard representation, so decoding returns `AllClients`, not the original party. -/
theorem claim_c2_counterexample :
    PartyId.from_u32 (PartyId.Client 0x7FFFFFFE).get_repr = PartyId.AllClients ∧
      PartyId.from_u32 (PartyId.Client 0x7FFFFFFE).get_repr ≠ PartyId.Client 0x7FFFFFFE := by
  decide

/-- Claim C3: for a Normal message whose origin is a single Server or single Client matching
`frame.origin_id` and whose destination is any of the four wildcards, with a server handle
present, the router leaves its state unchanged and sends the unmodified frame to the server
handle and to every client currently in `rooms[frame.room_id as u8]` (in room iteration order);
the sent list does not depend on which of the four wildcard destinations was used, so the echo
and non-echo variants behave identically.  The second conjunct shows the sender itself is among
the receivers whenever its party index is in the room. -/
theorem claim_c3_broadcast (s : RouterState) (r : Nat) (sa : ServerAddr) (origin : PartyId)
    (ms : MessageStream) (hmc : ms.message_code = .Normal) (horig : origin = ms.origin_id)
    (hsingle : origin.is_single_server_id = true ∨ origin.is_single_client_id = true)
    (hdest : ms.destination_id = .AllClients ∨ ms.destination_id = .AllServers ∨
      ms.destination_id = .AllClientsWithEcho ∨ ms.destination_id = .AllServersWithEcho)
    (hserver : s.server_handle = some (r, sa)) :
    handle s (.NewMessage origin ms) =
      some (s, ⟨.server sa, .NewMessage origin ms⟩ ::
        ((alLookup (ms.room_id % 256) s.game_rooms).getD []).map
          (fun pc => ⟨.client pc.2.2, .NewMessage origin ms⟩)) ∧
    (∀ u a, alLookup origin.get_repr ((alLookup (ms.room_id % 256) s.game_rooms).getD []) =
        some (u, a) →
      (⟨.client a, .NewMessage origin ms⟩ : Send) ∈
        ((alLookup (ms.room_id % 256) s.game_rooms).getD []).map
          (fun pc => (⟨.client pc.2.2, .NewMessage origin ms⟩ : Send))) := by
  constructor
  · obtain ⟨mc, rid, oid, did, pk, pl⟩ := ms
    simp only at hmc horig hdest ⊢
    subst hmc horig
    cases origin with
    | Client n =>
      rcases hdest with h | h | h | h <;> subst h <;>
        (simp only [handle, hserver]
         cases halt : alLookup (rid % 256) s.game_rooms <;>
           simp [halt, PartyId.is_single_server_id, PartyId.is_single_client_id])
    | Server n =>
      rcases hdest with h | h | h | h <;> subst h <;>
        (simp only [handle, hserver]
         cases halt : alLookup (rid % 256) s.game_rooms <;>
           simp [halt, PartyId.is_single_server_id, PartyId.is_single_client_id])
    | AllClients => simp [PartyId.is_single_server_id, PartyId.is_single_client_id] at hsingle
    | AllServers => simp [PartyId.is_single_server_id, PartyId.is_single_client_id] at hsingle
    | AllClientsWithEcho =>
      simp [PartyId.is_single_server_id, PartyId.is_single_client_id] at hsingle
    | AllServersWithEcho =>
      simp [PartyId.is_single_server_id, PartyId.is_single_client_id] at hsingle
  · intro u a hmem
    exact List.mem_map.mpr ⟨(origin.get_repr, (u, a)), alLookup_mem _ _ _ hmem, rfl⟩

/-- Witness for claim C3: a broadcast to room 5 with two clients reaches the server and both
clients. -/
theorem claim_c3_witness :
    handle room5State (.NewMessage (.Server 0) ⟨.Normal, 5, .Server 0, .AllClients, .Data, [9]⟩) =
      some (room5State,
        [⟨.server 7, .NewMessage (.Server 0) ⟨.Normal, 5, .Server 0, .AllClients, .Data, [9]⟩⟩,
         ⟨.client 20, .NewMessage (.Server 0) ⟨.Normal, 5, .Server 0, .AllClients, .Data, [9]⟩⟩,
         ⟨.client 21, .NewMessage (.Server 0)
           ⟨.Normal, 5, .Server 0, .AllClients, .Data, [9]⟩⟩]) := by
  rw [(claim_c3_broadcast room5State 0x80000000 7 (.Server 0)
    ⟨.Normal, 5, .Server 0, .AllClients, .Data, [9]⟩ rfl rfl (Or.inl rfl) (Or.inl rfl) rfl).1]
  decide

/-- Claim C4: when the router handles a routable Normal message (origin a single party matching
`frame.origin_id`) whose destination is `Server(_)` or any wildcard while no server handle is
present, the handler unwraps the absent server handle and panics (modelled by `none`). -/
theorem claim_c4_absent_server_panic (s : RouterState) (origin : PartyId) (ms : MessageStream)
    (hmc : ms.message_code = .Normal) (horig : origin = ms.origin_id)
    (hsingle : origin.is_single_server_id = true ∨ origin.is_single_client_id = true)
    (hdest : (∃ k, ms.destination_id = .Server k) ∨ ms.destination_id = .AllClients ∨
      ms.destination_id = .AllServers ∨ ms.destination_id = .AllClientsWithEcho ∨
      ms.destination_id = .AllServersWithEcho)
    (hns : s.server_handle = none) :
    handle s (.NewMessage origin ms) = none := by
  obtain ⟨mc, rid, oid, did, pk, pl⟩ := ms
  simp only at hmc horig hdest ⊢
  subst hmc horig
  cases origin with
  | Client n =>
    rcases hdest with ⟨k, h⟩ | h | h | h | h <;> subst h <;>
      simp [handle, hns, PartyId.is_single_server_id, PartyId.is_single_client_id]
  | Server n =>
    rcases hdest with ⟨k, h⟩ | h | h | h | h <;> subst h <;>
      simp [handle, hns, PartyId.is_single_server_id, PartyId.is_single_client_id]
  | AllClients => simp [PartyId.is_single_server_id, PartyId.is_single_client_id] at hsingle
  | AllServers => simp [PartyId.is_single_server_id, PartyId.is_single_client_id] at hsingle
  | AllClientsWithEcho =>
    simp [PartyId.is_single_server_id, PartyId.is_single_client_id] at hsingle
  | AllServersWithEcho =>
    simp [PartyId.is_single_server_id, PartyId.is_single_client_id] at hsingle

/-- Witness for claim C4: a client-to-server unicast in the initial (serverless) state
panics. -/
theorem claim_c4_witness :
    handle initialState (.NewMessage (.Client 0) ⟨.Normal, 0, .Client 0, .Server 0, .Data, []⟩) =
      none :=
  claim_c4_absent_server_panic initialState (.Client 0) _ rfl rfl (Or.inr rfl)
    (Or.inl ⟨0, rfl⟩) rfl

/-- Claim C5: a Special `NewMessage` updates router state only when the payload kind is `Info`
and the sending party is `Server(0)`; in that case the available-rooms list is replaced by the
payload sorted ascending, deduplicated, and truncated to at most 256 entries
(`specialRoomList`), nothing else changes and nothing is sent; in every other case the message
is dropped with no effect.  The remaining conjuncts check that `specialRoomList` really is
strictly sorted, has at most 256 entries, and only contains payload bytes. -/
theorem claim_c5_special (s : RouterState) (origin : PartyId) (ms : MessageStream)
    (hmc : ms.message_code = .Special) :
    (handle s (.NewMessage origin ms) =
      (if ms.payload_kind = .Info ∧ origin = .Server 0 then
        some ({ s with available_rooms := specialRoomList ms.payload }, [])
       else some (s, []))) ∧
    List.Sorted (· < ·) (specialRoomList ms.payload) ∧
    (specialRoomList ms.payload).length ≤ 256 ∧
    (∀ x ∈ specialRoomList ms.payload, x ∈ ms.payload) := by
  obtain ⟨hs1, hs2, hs3⟩ := specialRoomList_facts ms.payload
  refine ⟨?_, hs1, hs2, hs3⟩
  obtain ⟨mc, rid, oid, did, pk, pl⟩ := ms
  subst hmc
  by_cases hk : pk = PayloadKind.Info
  · by_cases horig : origin = PartyId.Server 0
    · subst hk horig
      simp [handle]
    · simp [handle, hk, horig]
  · simp [handle, hk]

/-- Witness for claim C5 at the spec's scenario B: payload `03 01 02 02` publishes
`[1, 2, 3]`. -/
theorem claim_c5_witness :
    handle initialState
      (.NewMessage (.Server 0) ⟨.Special, 0, .Server 0, .AllClients, .Info, [3, 1, 2, 2]⟩) =
      some (⟨[1, 2, 3], none, false, []⟩, []) := by
  rw [(claim_c5_special initialState (.Server 0)
    ⟨.Special, 0, .Server 0, .AllClients, .Info, [3, 1, 2, 2]⟩ rfl).1]
  decide

/-- Claim C6 (amended): a client party index may be present in several rooms at once, and a
client-departure `Disconnect` removes one entry from every room containing the index and emits
one goodbye notification per removed entry when a server handle is present (none otherwise).
The claimed at-most-one-room invariant fails on reachable states, see the counterexample. -/
theorem claim_c6_depart_all_rooms (s : RouterState) (p : PartyId) (u : Option Uuid)
    (hp : p ≠ .Server 0) :
    ∃ s' sends, handle s (.Disconnect p u) = some (s', sends) ∧
      sends.length = (if s.server_handle.isSome then roomsContaining s p.get_repr else 0) ∧
      totalEntries s'.game_rooms = totalEntries s.game_rooms - roomsContaining s p.get_repr := by
  refine ⟨{ s with game_rooms := (clientDepartLoop s.server_handle p s.game_rooms).1 },
    (clientDepartLoop s.server_handle p s.game_rooms).2, ?_, ?_, ?_⟩
  · simp [handle, hp]
  · exact (clientDepartLoop_spec s.server_handle p s.game_rooms).1
  · exact (clientDepartLoop_spec s.server_handle p s.game_rooms).2

/-- Witness for claim C6 at a state with party index 0 in two rooms: the departure removes two
entries and emits two goodbyes. -/
theorem claim_c6_witness :
    PartyId.Client 0 ≠ PartyId.Server 0 ∧
    (∃ s' sends, handle twoRoomState (.Disconnect (.Client 0) none) = some (s', sends) ∧
      sends.length =
        (if twoRoomState.server_handle.isSome then
          roomsContaining twoRoomState (PartyId.Client 0).get_repr
         else 0) ∧
      totalEntries s'.game_rooms =
        totalEntries twoRoomState.game_rooms -
          roomsContaining twoRoomState (PartyId.Client 0).get_repr) :=
  ⟨by decide, claim_c6_depart_all_rooms twoRoomState (.Client 0) none (by decide)⟩

/-- Counterexample to claim C6 as stated: two `ClientConnect` events with the same party index
and different room ids reach a state in which index 0 is present in two rooms. -/
theorem claim_c6_counterexample :
    ¬ (∀ s : RouterState, Reachable s → ∀ idx : Nat, roomsContaining s idx ≤ 1) := by
  intro hall
  have h1 : handle initialState (.ClientConnect 1 (.Client 0) (List.replicate 16 0) 10) =
      some (⟨[], none, false, [(1, [(0, (List.replicate 16 0, 10))])]⟩, []) := by
    decide
  have h2 : handle ⟨[], none, false, [(1, [(0, (List.replicate 16 0, 10))])]⟩
      (.ClientConnect 2 (.Client 0) (List.replicate 16 0) 11) =
      some (⟨[], none, false, [(1, [(0, (List.replicate 16 0, 10))]),
        (2, [(0, (List.replicate 16 0, 11))])]⟩, []) := by
    decide
  have hr : Reachable ⟨[], none, false, [(1, [(0, (List.replicate 16 0, 10))]),
      (2, [(0, (List.replicate 16 0, 11))])]⟩ :=
    Reachable.step (Reachable.step Reachable.init h1) h2
  exact absurd (hall _ hr 0) (by decide)

/-- Claim C7: handling `Disconnect(Server(0), _)` clears the server-joined flag, empties the
published available-rooms list, sends `Disconnect(PartyId::from_u32(idx), Some(client_uuid))`
to the connection handle of every client in every room, and sets the server handle to `None`
(the room table itself is kept). -/
theorem claim_c7_server_departure (s : RouterState) (u : Option Uuid) :
    handle s (.Disconnect (.Server 0) u) =
      some ({ s with server_joined := false, available_rooms := [], server_handle := none },
        clientCascade s.game_rooms) ∧
    ∀ room clients idx cu ca, (room, clients) ∈ s.game_rooms → (idx, (cu, ca)) ∈ clients →
      (⟨.client ca, .Disconnect (PartyId.from_u32 idx) (some cu)⟩ : Send) ∈
        clientCascade s.game_rooms := by
  constructor
  · simp [handle]
  · intro room clients idx cu ca hroom hmem2
    exact List.mem_flatMap.mpr ⟨(room, clients), hroom,
      List.mem_map.mpr ⟨(idx, (cu, ca)), hmem2, rfl⟩⟩

/-- Witness for claim C7 at a concrete one-client state. -/
theorem claim_c7_witness :
    handle ⟨[1], some (0x80000000, 7), true, [(1, [(0, (List.replicate 16 0, 10))])]⟩
        (.Disconnect (.Server 0) none) =
      some (⟨[], none, false, [(1, [(0, (List.replicate 16 0, 10))])]⟩,
        [⟨.client 10, .Disconnect (.Client 0) (some (List.replicate 16 0))⟩]) := by
  rw [(claim_c7_server_departure ⟨[1], some (0x80000000, 7), true,
    [(1, [(0, (List.replicate 16 0, 10))])]⟩ none).1]
  decide

/-- Claim C8: `from_raw` returns an error exactly when the input is shorter than 20 bytes, or
bytes 0..4 are not little-endian `0xFEED_BEEF`, or byte 4 is not in {0x00, 0x5E}, or byte 17 is
not in {0xC0, 0xDA, 0x1F}, or the declared payload length plus 20 differs from the total input
length; and every input shorter than 20 bytes fails with the short-header error. -/
theorem claim_c8_parse_errors (source : List Nat) :
    ((∃ e, from_raw source = Except.error e) ↔
      (source.length < 20 ∨ readU32 source 0 ≠ PREAMBLE ∨
       (source.getD 4 0 ≠ 0x00 ∧ source.getD 4 0 ≠ 0x5E) ∨
       (source.getD 17 0 ≠ 0xC0 ∧ source.getD 17 0 ≠ 0xDA ∧ source.getD 17 0 ≠ 0x1F) ∨
       readU16 source 18 + 20 ≠ source.length)) ∧
    (source.length < 20 → from_raw source = Except.error ParseError.shortHeader) := by
  unfold from_raw
  simp only [LENGTH_MESSAGE_STREAM_HEADER]
  constructor
  · split_ifs <;> simp_all
    omega
  · intro h
    rw [if_pos h]

/-- Witness for claim C8: the empty input fails the short-header check. -/
theorem claim_c8_witness : from_raw [] = Except.error ParseError.shortHeader :=
  (claim_c8_parse_errors []).2 (by decide)

/-- Claim C9: a Normal `NewMessage` whose sending party differs from `frame.origin_id`, or
whose origin is a wildcard (neither a single Client nor a single Server), is dropped: no send is
performed and the router state is unchanged. -/
theorem claim_c9_drop (s : RouterState) (origin : PartyId) (ms : MessageStream)
    (hmc : ms.message_code = .Normal)
    (h : origin ≠ ms.origin_id ∨
      (origin.is_single_server_id = false ∧ origin.is_single_client_id = false)) :
    handle s (.NewMessage origin ms) = some (s, []) := by
  obtain ⟨mc, rid, oid, did, pk, pl⟩ := ms
  simp only at hmc h ⊢
  subst hmc
  rcases h with h | ⟨h1, h2⟩
  · simp [handle, h]
  · by_cases horig : origin = oid
    · subst horig
      cases origin <;> simp_all [handle, PartyId.is_single_server_id, PartyId.is_single_client_id]
    · simp [handle, horig]

/-- Witness for claim C9: a spoofed origin is dropped without effect. -/
theorem claim_c9_witness :
    handle initialState (.NewMessage (.Client 0) ⟨.Normal, 0, .Client 1, .Server 0, .Data, []⟩) =
      some (initialState, []) :=
  claim_c9_drop initialState (.Client 0) _ rfl (Or.inl (by decide))

/-- Claim C10: a `ClientConnect` carrying a (room id, party index) pair already present in the
room table silently overwrites the existing entry with the new (uuid, handle) pair; the only
send is the hello notification for the new client to the server handle — the evicted client's
handle receives nothing and no goodbye is emitted.  The second conjunct shows the room then maps
the index to the new pair. -/
theorem claim_c10_overwrite (s : RouterState) (room : Nat) (p : PartyId) (u : Uuid)
    (addr : ClientAddr) (rr : Nat) (sa : ServerAddr) (clients : RoomClients)
    (u0 : Uuid) (a0 : ClientAddr)
    (hroom : alLookup room s.game_rooms = some clients)
    (hmem : alLookup p.get_repr clients = some (u0, a0))
    (hsv : s.server_handle = some (rr, sa)) :
    handle s (.ClientConnect room p u addr) =
      some ({ s with
          game_rooms := alInsert room (alInsert p.get_repr (u, addr) clients) s.game_rooms },
        [⟨.server sa, .NewMessage p ⟨.Special, room, p, .Server 0, .Info, helloPayload u⟩⟩]) ∧
    alLookup p.get_repr (alInsert p.get_repr (u, addr) clients) = some (u, addr) := by
  constructor
  · simp [handle, hroom, hsv]
  · exact alLookup_alInsert _ _ _

/-- Witness for claim C10: reconnecting party index 0 of room 3 replaces the stored entry and
emits only the hello. -/
theorem claim_c10_witness :
    handle room3State (.ClientConnect 3 (.Client 0) (List.replicate 16 2) 12) =
      some (⟨[], some (0x80000000, 7), true, [(3, [(0, (List.replicate 16 2, 12))])]⟩,
        [⟨.server 7, .NewMessage (.Client 0)
          ⟨.Special, 3, .Client 0, .Server 0, .Info, helloPayload (List.replicate 16 2)⟩⟩]) := by
  rw [(claim_c10_overwrite room3State 3 (.Client 0) (List.replicate 16 2) 12 0x80000000 7
    [(0, (List.replicate 16 0, 9))] (List.replicate 16 0) 9 (by decide) (by decide)
    (by decide)).1]
  decide

end GameRoom
